import Mathlib

/-!
Verification of the suscart detection-to-inventory reconciliation pipeline.

The definitions below are shallow embeddings of the Python source:
`backend/models.py` (freshness engine), `backend/utils/helpers.py`
(freshness application, recommendation matching, AI rate limiter),
`backend/main.py` (debounced count tracking, inventory reconciliation,
freshness endpoints) and `backend/utils/image_storage.py` (image
lifecycle).  Python floats are modelled as real numbers, timestamps as
rationals, and the ORM store as a list of records.
-/

namespace SusCart

/-! ## Status strings (models.py `FreshnessStatus`) -/

def statusFresh : String := "fresh"

def statusRipe : String := "ripe"

def statusClearance : String := "clearance"

def statusCritical : String := "critical"

def appleLabel : String := "apple"

def bananaLabel : String := "banana"

/-! ## Freshness engine (models.py 147-179, helpers.py 104-159) -/

/-- Python `round(x, 2)`: two-decimal rounding, half away from zero on the
nonnegative inputs the pipeline produces. -/
noncomputable def round2 (x : ℝ) : ℝ := ((⌊x * 100 + 1 / 2⌋ : ℤ) : ℝ) / 100

/-- Python `round(x, 4)`: four-decimal rounding used by the camera
aggregation path (main.py 1127). -/
noncomputable def round4 (x : ℝ) : ℝ := ((⌊x * 10000 + 1 / 2⌋ : ℤ) : ℝ) / 10000

/-- Python `x ** 1.5` for the nonnegative inputs produced by clamping:
`x ** 1.5 = x * sqrt x`. -/
noncomputable def pow15 (x : ℝ) : ℝ := x * Real.sqrt x

/-- FreshnessStatus.calculate_discount (models.py 147-170):
`discount = round(75 * (1 - clamp(freshness_score, 0, 1) ** 1.5), 2)`. -/
noncomputable def calculate_discount (freshness_score : ℝ) : ℝ :=
  round2 (75 * (1 - pow15 (max 0 (min 1 freshness_score))))

/-- FreshnessStatus.update_status (models.py 172-179). -/
noncomputable def update_status (freshness_score : ℝ) : String :=
  if 0.6 ≤ freshness_score then statusFresh
  else if 0.2 ≤ freshness_score then statusRipe
  else statusClearance

/-- Observable outcome of update_freshness_for_item (helpers.py 104-159)
for one inventory item. -/
structure FreshnessOutcome where
  discount : ℝ
  status : String
  newPrice : ℝ
  criticalAlert : Bool
  recommendationTriggered : Prop

/-- update_freshness_for_item (helpers.py 104-159): recompute discount and
status from the stored score, reprice the item, raise the admin alert only
when the status reads "critical", and trigger recommendations when the
discount strictly grew past the 20 threshold. -/
noncomputable def update_freshness_for_item
    (freshness_score old_discount original_price : ℝ) : FreshnessOutcome :=
  let d := calculate_discount freshness_score
  let st := update_status freshness_score
  { discount := d
    status := st
    newPrice := round2 (original_price * (1 - d / 100))
    criticalAlert := st == statusCritical
    recommendationTriggered := old_discount < d ∧ 20 ≤ d }

/-- update_freshness_from_camera (main.py 156-197): converts the camera
scorer's 0-100 scale to 0-1 before delegating to
update_freshness_for_item. -/
noncomputable def update_freshness_from_camera
    (freshness_score old_discount original_price : ℝ) : FreshnessOutcome :=
  update_freshness_for_item (freshness_score / 100) old_discount original_price

/-- Manual-report endpoint POST /api/freshness/update (main.py 202-283):
stores the payload's freshness_score unconverted and runs the same engine
on it; returns (discount, status). -/
noncomputable def update_freshness_endpoint (payload_score : ℝ) : ℝ × String :=
  (calculate_discount payload_score, update_status payload_score)

/-- The camera aggregation step `_calculate_freshness_updates`
(main.py 1110-1129): averages the per-detection 0-100 scores of one
category, divides by 100 and rounds to 4 decimals. -/
noncomputable def calculate_freshness_update (scores : List ℝ) : Option ℝ :=
  match scores with
  | [] => none
  | _ => some (round4 ((scores.sum / scores.length) / 100))

/-! ## Arithmetic facts about the engine -/

/-! ## Claim C3: the freshness-to-discount curve -/

/-! ## Claim C4: status tiers and repricing -/

/-! ## Claim C7: manual-report path vs camera path scale -/

/-! ## Claim C10: the critical-status alert is unreachable -/

/-! ## CountTracker and InventoryReconciler
(main.py `_prepare_inventory_updates` 1194-1258 and
`_apply_inventory_updates` 1261-1351).  Timestamps are rationals, the
in-memory inventory cache is an association list category -> (item id,
quantity), and the backing store is a list of committed records. -/

inductive UpdateKind where
  | update
  | create
  | freshnessOnly
deriving DecidableEq, Repr

/-- One entry of the updates_to_process list built by
_prepare_inventory_updates. -/
structure InvUpdate where
  kind : UpdateKind
  itemId : Option ℕ
  fruitType : String
  oldQuantity : ℕ
  newQuantity : ℕ
  freshness : Option ℚ
deriving DecidableEq, Repr

abbrev InventoryCache := List (String × ℕ × ℕ)

def cacheLookup (c : InventoryCache) (k : String) : Option (ℕ × ℕ) :=
  match c.find? (fun e => decide (e.1 = k)) with
  | some e => some e.2
  | none => none

def cacheInsert (c : InventoryCache) (k : String) (v : ℕ × ℕ) : InventoryCache :=
  (k, v) :: c.filter (fun e => decide (e.1 ≠ k))

def cacheErase (c : InventoryCache) (k : String) : InventoryCache :=
  c.filter (fun e => decide (e.1 ≠ k))

/-- The per-category debounce gate (main.py 1205-1212): with no recorded
last_update_time the gate opens and stamps now; otherwise the gate opens
(and restamps) only when now - last >= update_delta, and a closed gate
leaves the stamp untouched. Returns (gate open, stamp after the tick). -/
def prepareGate (lastUpd : Option ℚ) (now delta : ℚ) : Bool × ℚ :=
  match lastUpd with
  | none => (true, now)
  | some t => if now - t < delta then (false, t) else (true, now)

/-- Result of running _prepare_inventory_updates on a single category. -/
structure PrepStepOut where
  emitted : Option InvUpdate
  cacheEntry : Option (ℕ × ℕ)
  lastUpd : ℚ
  imagesDeleted : Bool
deriving DecidableEq, Repr

/-- The open-gate body of _prepare_inventory_updates' loop for one
category (main.py 1214-1256): count-change handling (emitting an update
or create delta, advancing the cache entry in place for the update case,
and spawning image deletion when the count reaches zero), else
freshness-only handling; `t` is the stamp the gate just wrote. -/
def prepareEmit (fruitType : String) (currentCount previousCount : ℕ)
    (freshness : Option ℚ) (cacheEntry : Option (ℕ × ℕ)) (t : ℚ) : PrepStepOut :=
  if currentCount ≠ previousCount then
    let del := currentCount == 0
    match cacheEntry with
    | some (itemId, oldQ) =>
      ⟨some ⟨.update, some itemId, fruitType, oldQ, currentCount,
          if 0 < currentCount then freshness else none⟩,
        some (itemId, currentCount), t, del⟩
    | none =>
      if 0 < currentCount then
        ⟨some ⟨.create, none, fruitType, 0, currentCount, freshness⟩, none, t, del⟩
      else ⟨none, none, t, del⟩
  else if 0 < currentCount ∧ freshness.isSome then
    match cacheEntry with
    | some (itemId, q) =>
      ⟨some ⟨.freshnessOnly, some itemId, fruitType, q, currentCount, freshness⟩,
        cacheEntry, t, false⟩
    | none => ⟨none, none, t, false⟩
  else ⟨none, cacheEntry, t, false⟩

/-- The body of _prepare_inventory_updates' loop for one category
(main.py 1201-1256): the debounce gate followed, when open, by
prepareEmit at the fresh stamp. -/
def prepareStep (fruitType : String) (currentCount previousCount : ℕ)
    (freshness : Option ℚ) (cacheEntry : Option (ℕ × ℕ))
    (lastUpd : Option ℚ) (now delta : ℚ) : PrepStepOut :=
  match prepareGate lastUpd now delta with
  | (false, t) => ⟨none, cacheEntry, t, false⟩
  | (true, t) => prepareEmit fruitType currentCount previousCount freshness cacheEntry t

/-- Observation of one category in one detection cycle. -/
structure FruitObs where
  fruitType : String
  currentCount : ℕ
  previousCount : ℕ
  freshness : Option ℚ
deriving DecidableEq, Repr

/-- Output of _prepare_inventory_updates over a whole detection cycle. -/
structure PrepOut where
  updates : List InvUpdate
  cache : InventoryCache
  lastUpdated : List (String × ℚ)
  deletedCategories : List String
deriving DecidableEq, Repr

def lookupTime (l : List (String × ℚ)) (k : String) : Option ℚ :=
  match l.find? (fun e => decide (e.1 = k)) with
  | some e => some e.2
  | none => none

def insertTime (l : List (String × ℚ)) (k : String) (v : ℚ) : List (String × ℚ) :=
  (k, v) :: l.filter (fun e => decide (e.1 ≠ k))

/-- _prepare_inventory_updates (main.py 1194-1258) over the union of
observed categories: builds the updates_to_process list and already
mutates inventory_cache and last_updated_time in place, before any store
write happens. -/
def prepareInventoryUpdates (obs : List FruitObs) (cache : InventoryCache)
    (lastUpdatedTime : List (String × ℚ)) (now delta : ℚ) : PrepOut :=
  match obs with
  | [] => ⟨[], cache, lastUpdatedTime, []⟩
  | o :: rest =>
    let s := prepareStep o.fruitType o.currentCount o.previousCount o.freshness
      (cacheLookup cache o.fruitType) (lookupTime lastUpdatedTime o.fruitType) now delta
    let cache' := match s.cacheEntry with
      | some v => cacheInsert cache o.fruitType v
      | none => cache
    let restOut := prepareInventoryUpdates rest cache'
      (insertTime lastUpdatedTime o.fruitType s.lastUpd) now delta
    ⟨(match s.emitted with
       | some u => u :: restOut.updates
       | none => restOut.updates),
      restOut.cache, restOut.lastUpdated,
      (if s.imagesDeleted then o.fruitType :: restOut.deletedCategories
       else restOut.deletedCategories)⟩

/-- One committed inventory record (models.py FruitInventory, the fields
the reconciler touches). -/
structure InvItem where
  id : ℕ
  fruitType : String
  quantity : ℕ
deriving DecidableEq, Repr

abbrev InvStore := List InvItem

def storeQty (st : InvStore) (i : ℕ) : Option ℕ :=
  match st.find? (fun it => decide (it.id = i)) with
  | some it => some it.quantity
  | none => none

def freshId (st : InvStore) : ℕ := (st.map (fun it => it.id)).foldr max 0 + 1

/-- One iteration of _apply_inventory_updates' loop (main.py 1267-1349):
an update delta rewrites the quantity of the record with the delta's item
id in place (recreating the record if it was deleted concurrently,
main.py 1285-1317), a create delta inserts a new record, and a
freshness-only delta leaves quantities untouched; the cache entry is
rewritten alongside. -/
def applyUpdate (st : InvStore) (cache : InventoryCache) (u : InvUpdate) :
    InvStore × InventoryCache :=
  match u.kind with
  | .update =>
    let targetId := u.itemId.getD 0
    match st.find? (fun it => decide (it.id = targetId)) with
    | some _ =>
      (st.map (fun it => if it.id = targetId then { it with quantity := u.newQuantity } else it),
        cacheInsert cache u.fruitType (targetId, u.newQuantity))
    | none =>
      let nid := freshId st
      (⟨nid, u.fruitType, u.newQuantity⟩ :: st,
        cacheInsert (cacheErase cache u.fruitType) u.fruitType (nid, u.newQuantity))
  | .create =>
    let nid := freshId st
    (⟨nid, u.fruitType, u.newQuantity⟩ :: st,
      cacheInsert cache u.fruitType (nid, u.newQuantity))
  | .freshnessOnly => (st, cache)

/-- _apply_inventory_updates (main.py 1261-1351).  Each update is paired
with a flag saying whether its store write raises.  The helper
notify_quantity_change commits the session after every quantity change
(helpers.py 74), so once an update has been processed its write is
durable; _apply_inventory_updates itself has no exception handler, so a
raising write propagates with everything before it already committed —
modelled by the error value carrying the store and cache at the raise. -/
def applyInventoryUpdates :
    List (InvUpdate × Bool) → InvStore → InventoryCache →
    Except (InvStore × InventoryCache) (InvStore × InventoryCache)
  | [], st, c => .ok (st, c)
  | (u, failHere) :: rest, st, c =>
    if failHere then .error (st, c)
    else
      let p := applyUpdate st c u
      applyInventoryUpdates rest p.1 p.2

/-! ## Per-category tick sequences (claim C2) -/

/-- Observation of one category at one detection tick. -/
structure TickObs where
  time : ℚ
  count : ℕ
  freshness : Option ℚ
deriving DecidableEq, Repr

/-- Tick times are nondecreasing. -/
def tickLE (a b : TickObs) : Prop := a.time ≤ b.time

instance : IsTrans TickObs tickLE := ⟨fun _ _ _ h1 h2 => le_trans h1 h2⟩

instance (a b : TickObs) : Decidable (tickLE a b) := Rat.instDecidableLe a.time b.time

/-- Per-category tracker state across ticks: the category's
last_updated_time entry, previous_class_counts entry and inventory_cache
entry. -/
structure TrackState where
  lastUpd : Option ℚ
  prevCount : ℕ
  cacheEntry : Option (ℕ × ℕ)
deriving DecidableEq, Repr

/-- One detection tick for one category: prepareStep followed by the main
loop's bookkeeping after _apply_inventory_updates (main.py 1450-1459):
previous count taken from the emitted delta, and the cache entry as the
apply step leaves it (a create inserts the new record's cache entry; the
record id assigned by the store never feeds back into the gate logic and
is modelled as 0 here). -/
def trackStep (fruitType : String) (delta : ℚ) (st : TrackState) (tk : TickObs) :
    Option (ℚ × InvUpdate) × TrackState :=
  let s := prepareStep fruitType tk.count st.prevCount tk.freshness
    st.cacheEntry st.lastUpd tk.time delta
  match s.emitted with
  | some u =>
    (some (tk.time, u),
      ⟨some s.lastUpd,
        (match u.kind with
          | .update => u.newQuantity
          | .create => u.newQuantity
          | .freshnessOnly => tk.count),
        (if u.kind = .create then some (0, u.newQuantity) else s.cacheEntry)⟩)
  | none => (none, ⟨some s.lastUpd, st.prevCount, s.cacheEntry⟩)

/-- Timestamped deltas emitted for one category over a tick sequence. -/
def runTicks (fruitType : String) (delta : ℚ) (st : TrackState) :
    List TickObs → List (ℚ × InvUpdate)
  | [] => []
  | tk :: rest =>
    match trackStep fruitType delta st tk with
    | (some e, st') => e :: runTicks fruitType delta st' rest
    | (none, st') => runTicks fruitType delta st' rest

/-! ## Claim C1: batch commit behaviour of the reconciler -/

def demoCache : InventoryCache := [(appleLabel, (1, 3)), (bananaLabel, (2, 2))]

def demoObs : List FruitObs := [⟨appleLabel, 5, 3, none⟩, ⟨bananaLabel, 0, 2, none⟩]

def demoStore : InvStore := [⟨1, appleLabel, 3⟩, ⟨2, bananaLabel, 2⟩]

def demoPrep : PrepOut := prepareInventoryUpdates demoObs demoCache [] 10 1

def demoApplyResult : Except (InvStore × InventoryCache) (InvStore × InventoryCache) :=
  applyInventoryUpdates
    (demoPrep.updates.map (fun u => (u, decide (u.fruitType = bananaLabel))))
    demoStore demoPrep.cache

def exceptIsError (e : Except (InvStore × InventoryCache) (InvStore × InventoryCache)) :
    Bool :=
  match e with
  | .error _ => true
  | .ok _ => false

def exceptState (e : Except (InvStore × InventoryCache) (InvStore × InventoryCache)) :
    InvStore × InventoryCache :=
  match e with
  | .error p => p
  | .ok p => p

def demoU1 : InvUpdate := ⟨.update, some 1, appleLabel, 3, 5, none⟩

def demoU2 : InvUpdate := ⟨.update, some 2, bananaLabel, 2, 0, none⟩

/-! ## Claim C5: count transitions to zero -/

def thumbMark : String := "thumbnail."

def procMark : String := "processed_"

def strStarts (s pat : String) : Bool := pat.toList.isPrefixOf s.toList

/-- Retained-file test of delete_category_images and
replace_category_images (image_storage.py 52, 208): a file survives
exactly when its name carries the thumbnail. or processed_ marker. -/
def preservedImage (name : String) : Bool :=
  strStarts name thumbMark || strStarts name procMark

/-- delete_category_images (image_storage.py 192-222): removes every file
of the category directory except thumbnail.* and processed_* files;
returns the retained files. -/
def delete_category_images (files : List String) : List String :=
  files.filter preservedImage

def procImgName : String := "processed_a.jpg"

def thumbImgName : String := "thumbnail.jpg"

def plainImgName : String := "20250101_120000_0.jpg"

def demoFiles : List String := [procImgName, plainImgName, thumbImgName]

/-! ## Claim C8: retention pruning (image_storage.py keep_latest_images) -/

/-- One persisted image file with its modification time. -/
structure ImgFile where
  name : String
  mtime : ℕ
deriving DecidableEq, Repr

/-- Newest-first ordering on files by modification time, the sort key of
keep_latest_images (image_storage.py 105). -/
def newerEq (a b : ImgFile) : Prop := b.mtime ≤ a.mtime

instance : DecidableRel newerEq := fun a b => Nat.decLe b.mtime a.mtime

instance : IsTotal ImgFile newerEq := ⟨fun a b => Nat.le_total b.mtime a.mtime⟩

instance : IsTrans ImgFile newerEq := ⟨fun _ _ _ h1 h2 => le_trans h2 h1⟩

/-- keep_latest_images (image_storage.py 88-117): when more than
max_images .jpg files exist, sorts them newest-first by modification time
and deletes everything beyond the cap; every .jpg file takes part — there
is no exemption for processed_* or thumbnail.* files.  Returns the pair
(kept files, deleted files). -/
def keep_latest_images (files : List ImgFile) (max_images : ℕ) :
    List ImgFile × List ImgFile :=
  if files.length ≤ max_images then (files, [])
  else
    ((List.insertionSort newerEq files).take max_images,
      (List.insertionSort newerEq files).drop max_images)

def demoImgs : List ImgFile :=
  [⟨thumbImgName, 0⟩, ⟨procImgName, 1⟩, ⟨"b.jpg", 10⟩, ⟨"c.jpg", 20⟩, ⟨"d.jpg", 30⟩]

/-! ## Claim C6: the AI recommendation rate limiter
(helpers.py 450-483 and 18-21) -/

/-- Dispatch outcome of one call to _generate_recommendations_threaded:
which matcher ran and the shared last-AI-call stamp afterwards. -/
structure RecDispatch where
  aiInvoked : Bool
  simpleInvoked : Bool
  newLast : ℚ
deriving DecidableEq, Repr

/-- _generate_recommendations_threaded (helpers.py 450-483): with
algorithm set, the simple matcher runs unconditionally and never touches
the limiter; otherwise, under rate limiting, the AI matcher runs only
when at least AI_RECOMMENDATION_INTERVAL has elapsed since the shared
last-call stamp — the stamp is updated exactly when it runs, and a
skipped call performs no work (no queueing, no retry). -/
def generateRecommendationsThreaded (algorithm rateLimited : Bool)
    (interval lastCall now : ℚ) : RecDispatch :=
  if algorithm then ⟨false, true, lastCall⟩
  else if rateLimited then
    if now - lastCall < interval then ⟨false, false, lastCall⟩
    else ⟨true, false, now⟩
  else ⟨true, false, lastCall⟩

/-- Number of AI invocations over a burst of rate-limited AI-path calls,
threading the shared last-call stamp through the burst. -/
def runAiBurst (interval : ℚ) : ℚ → List ℚ → ℕ
  | _, [] => 0
  | lastCall, t :: ts =>
    let d := generateRecommendationsThreaded false true interval lastCall t
    (if d.aiInvoked then 1 else 0) + runAiBurst interval d.newLast ts

/-! ## Claim C9: failure isolation in the simple matcher
(helpers.py _generate_recommendations_simple 384-438) -/

/-- Customer preferences as read by the simple matcher. -/
structure Customer where
  id : ℕ
  favoriteFruits : List String
  maxPrice : ℚ
  preferredDiscount : ℚ
deriving DecidableEq, Repr

/-- The discounted item the matcher is matching. -/
structure DiscountedItem where
  fruitType : String
  currentPrice : ℚ
  discount : ℚ
deriving DecidableEq, Repr

/-- The per-customer preference check (helpers.py 406-408). -/
def customerMatches (item : DiscountedItem) (c : Customer) : Prop :=
  item.fruitType ∈ c.favoriteFruits ∧ item.currentPrice ≤ c.maxPrice ∧
    c.preferredDiscount ≤ item.discount

instance (item : DiscountedItem) (c : Customer) : Decidable (customerMatches item c) :=
  inferInstanceAs (Decidable (_ ∧ _ ∧ _))

/-- Result of one run of the simple matcher: the committed recommendation
records and the customers that received a notification. -/
structure SimpleRecResult where
  recommendations : List ℕ
  notified : List ℕ
deriving DecidableEq, Repr

/-- Loop of _generate_recommendations_simple (helpers.py 399-433).  Any
statement processed for one customer may raise (the fails oracle); the
single try/except wrapping the whole loop means a raise aborts the
remaining customers, rolls the session back — discarding every pending
recommendation record — and returns the empty list, while notifications
already pushed before the raise are not undone. -/
def simpleRecGo (item : DiscountedItem) (fails : Customer → Bool) :
    List Customer → List ℕ → List ℕ → SimpleRecResult
  | [], recs, notes => ⟨recs, notes⟩
  | c :: cs, recs, notes =>
    if fails c then ⟨[], notes⟩
    else if customerMatches item c then
      simpleRecGo item fails cs (recs ++ [c.id]) (notes ++ [c.id])
    else simpleRecGo item fails cs recs notes

/-- _generate_recommendations_simple (helpers.py 384-438): nothing is
recommended below the 15-percent discount bar; otherwise the matching
loop runs over all customers. -/
def generate_recommendations_simple (item : DiscountedItem)
    (customers : List Customer) (fails : Customer → Bool) : SimpleRecResult :=
  if item.discount < 15 then ⟨[], []⟩
  else simpleRecGo item fails customers [] []

def matchedIds (item : DiscountedItem) (cs : List Customer) : List ℕ :=
  (cs.filter (fun c => decide (customerMatches item c))).map (fun c => c.id)

def demoItem : DiscountedItem := ⟨appleLabel, 3, 30⟩

def badCustomer : Customer := ⟨1, [], 10, 20⟩

def goodCustomer : Customer := ⟨2, [appleLabel], 10, 20⟩

def demoFails : Customer → Bool := fun c => decide (c.id = 1)

lemma round2_eq_of (x : ℝ) (n : ℤ) (h1 : (n : ℝ) ≤ x * 100 + 1 / 2)
    (h2 : x * 100 + 1 / 2 < n + 1) : round2 x = n / 100 := by
  unfold round2
  rw [Int.floor_eq_iff.mpr ⟨h1, by linarith⟩]

lemma round2_mono {x y : ℝ} (h : x ≤ y) : round2 x ≤ round2 y := by
  unfold round2
  have h1 : (⌊x * 100 + 1 / 2⌋ : ℤ) ≤ ⌊y * 100 + 1 / 2⌋ :=
    Int.floor_le_floor (by linarith)
  have h2 : ((⌊x * 100 + 1 / 2⌋ : ℤ) : ℝ) ≤ ((⌊y * 100 + 1 / 2⌋ : ℤ) : ℝ) := by
    exact_mod_cast h1
  linarith

lemma round2_nonneg {x : ℝ} (h : 0 ≤ x) : 0 ≤ round2 x := by
  unfold round2
  have h1 : (0 : ℤ) ≤ ⌊x * 100 + 1 / 2⌋ := Int.le_floor.mpr (by push_cast; linarith)
  have h2 : (0 : ℝ) ≤ ((⌊x * 100 + 1 / 2⌋ : ℤ) : ℝ) := by exact_mod_cast h1
  linarith

lemma round2_le_75 {x : ℝ} (h : x ≤ 75) : round2 x ≤ 75 := by
  unfold round2
  have h1 : (⌊x * 100 + 1 / 2⌋ : ℤ) ≤ ⌊(7500.5 : ℝ)⌋ := Int.floor_le_floor (by linarith)
  have h2 : (⌊(7500.5 : ℝ)⌋ : ℤ) = 7500 := by norm_num [Int.floor_eq_iff]
  rw [h2] at h1
  have h3 : ((⌊x * 100 + 1 / 2⌋ : ℤ) : ℝ) ≤ 7500 := by exact_mod_cast h1
  linarith

lemma clamp01_nonneg (f : ℝ) : 0 ≤ max 0 (min 1 f) := le_max_left 0 _

lemma clamp01_le_one (f : ℝ) : max 0 (min 1 f) ≤ 1 :=
  max_le (by norm_num) (min_le_left 1 f)

lemma clamp01_mono {a b : ℝ} (h : a ≤ b) :
    max 0 (min 1 a) ≤ max 0 (min 1 b) :=
  max_le_max le_rfl (min_le_min le_rfl h)

lemma pow15_nonneg {x : ℝ} (h : 0 ≤ x) : 0 ≤ pow15 x :=
  mul_nonneg h (Real.sqrt_nonneg x)

lemma pow15_le_one {x : ℝ} (h1 : x ≤ 1) : pow15 x ≤ 1 :=
  mul_le_one₀ h1 (Real.sqrt_nonneg x) (Real.sqrt_le_one.mpr h1)

lemma pow15_mono {x y : ℝ} (h0 : 0 ≤ x) (hxy : x ≤ y) : pow15 x ≤ pow15 y :=
  mul_le_mul hxy (Real.sqrt_le_sqrt hxy) (Real.sqrt_nonneg x) (le_trans h0 hxy)

lemma calculate_discount_at_one : calculate_discount 1 = 0 := by
  unfold calculate_discount pow15
  rw [show max 0 (min 1 (1 : ℝ)) = 1 by norm_num, Real.sqrt_one]
  rw [show (75 : ℝ) * (1 - 1 * 1) = 0 by ring]
  rw [round2_eq_of 0 0 (by norm_num) (by norm_num)]
  norm_num

lemma calculate_discount_at_zero : calculate_discount 0 = 75 := by
  unfold calculate_discount pow15
  rw [show max 0 (min 1 (0 : ℝ)) = 0 by norm_num, Real.sqrt_zero]
  rw [show (75 : ℝ) * (1 - 0 * 0) = 75 by ring]
  rw [round2_eq_of 75 7500 (by norm_num) (by norm_num)]
  norm_num

lemma calculate_discount_bounds (f : ℝ) :
    0 ≤ calculate_discount f ∧ calculate_discount f ≤ 75 := by
  unfold calculate_discount
  have h0 := clamp01_nonneg f
  have h1 := clamp01_le_one f
  have hp0 := pow15_nonneg h0
  have hp1 := pow15_le_one h1
  constructor
  · exact round2_nonneg (by nlinarith)
  · exact round2_le_75 (by nlinarith)

lemma calculate_discount_antitone {a b : ℝ} (hab : a ≤ b) :
    calculate_discount b ≤ calculate_discount a := by
  unfold calculate_discount
  have hm := pow15_mono (clamp01_nonneg a) (clamp01_mono hab)
  exact round2_mono (by nlinarith)

lemma sqrt_two_sq : Real.sqrt 2 * Real.sqrt 2 = 2 := by
  have := Real.sq_sqrt (show (0 : ℝ) ≤ 2 by norm_num)
  nlinarith [this]

lemma pow15_at_half : pow15 (1 / 2) = Real.sqrt 2 / 4 := by
  unfold pow15
  have hpos : 0 < Real.sqrt 2 := Real.sqrt_pos.mpr (by norm_num)
  have hinv : (Real.sqrt 2)⁻¹ = Real.sqrt 2 / 2 := by
    rw [eq_div_iff (by norm_num : (2 : ℝ) ≠ 0), inv_mul_eq_div,
      div_eq_iff (ne_of_gt hpos), sqrt_two_sq]
  rw [show (1 / 2 : ℝ) = 2⁻¹ by norm_num, Real.sqrt_inv, hinv]
  ring

lemma calculate_discount_at_half : calculate_discount (1 / 2) = 48.48 := by
  unfold calculate_discount
  rw [show max 0 (min 1 (1 / 2 : ℝ)) = 1 / 2 by norm_num, pow15_at_half]
  have hs := sqrt_two_sq
  have hnn : 0 ≤ Real.sqrt 2 := Real.sqrt_nonneg 2
  have hub : Real.sqrt 2 ≤ 1.41422 := by nlinarith [sq_nonneg (Real.sqrt 2 - 1.41422)]
  have hlb : 1.41421 ≤ Real.sqrt 2 := by nlinarith [sq_nonneg (Real.sqrt 2 - 1.41421)]
  rw [round2_eq_of _ 4848 (by nlinarith) (by push_cast; nlinarith)]
  norm_num

lemma calculate_discount_at_36 : calculate_discount 36 = 0 := by
  unfold calculate_discount pow15
  rw [show max 0 (min 1 (36 : ℝ)) = 1 by norm_num, Real.sqrt_one]
  rw [show (75 : ℝ) * (1 - 1 * 1) = 0 by ring]
  rw [round2_eq_of 0 0 (by norm_num) (by norm_num)]
  norm_num

lemma calculate_discount_at_036 : calculate_discount (36 / 100) = 58.8 := by
  unfold calculate_discount pow15
  rw [show max 0 (min 1 (36 / 100 : ℝ)) = 36 / 100 by norm_num]
  rw [show (36 / 100 : ℝ) = (3 / 5) ^ 2 by norm_num,
    Real.sqrt_sq (by norm_num : (0 : ℝ) ≤ 3 / 5)]
  rw [round2_eq_of _ 5880 (by norm_num) (by norm_num)]
  norm_num

lemma update_status_at_half : update_status (1 / 2) = statusRipe := by
  unfold update_status
  rw [if_neg (by norm_num), if_pos (by norm_num)]

/-- C3: for every freshness score f the discount function returns
round(75 * (1 - clamp(f,0,1)^1.5), 2); it is 0 at f = 1 and 75 at f = 0,
always lies in [0, 75], and is monotonically non-increasing over [0, 1]. -/
theorem freshness_discount_curve_spec :
    (∀ f : ℝ, calculate_discount f = round2 (75 * (1 - pow15 (max 0 (min 1 f)))))
    ∧ calculate_discount 1 = 0
    ∧ calculate_discount 0 = 75
    ∧ (∀ f : ℝ, 0 ≤ calculate_discount f ∧ calculate_discount f ≤ 75)
    ∧ (∀ a b : ℝ, 0 ≤ a → a ≤ b → b ≤ 1 →
        calculate_discount b ≤ calculate_discount a) := by
  refine ⟨fun f => rfl, calculate_discount_at_one, calculate_discount_at_zero,
    calculate_discount_bounds, fun a b h0 hab h1 => calculate_discount_antitone hab⟩

/-- Witness for C3: the monotonicity clause applied at the endpoints 0 and 1. -/
theorem freshness_discount_curve_spec_witness :
    calculate_discount 1 ≤ calculate_discount 0 :=
  freshness_discount_curve_spec.2.2.2.2 0 1 (by norm_num) (by norm_num) (by norm_num)

/-- C4 counterexample: at freshness 0.5 the code produces discount 48.48,
not (approximately) 48.47 as claimed, and the resulting price differs from
the claim's round(original * (1 - 0.4847), 2) at original price 100. -/
theorem status_tiers_price_cex :
    calculate_discount (1 / 2) = 48.48 ∧ (48.48 : ℝ) ≠ 48.47 ∧
    (update_freshness_for_item (1 / 2) 0 100).newPrice = 51.52 ∧
    round2 (100 * (1 - 0.4847)) = 51.53 ∧ (51.52 : ℝ) ≠ 51.53 := by
  refine ⟨calculate_discount_at_half, by norm_num, ?_, ?_, by norm_num⟩
  · show round2 (100 * (1 - calculate_discount (1 / 2) / 100)) = 51.52
    rw [calculate_discount_at_half]
    rw [round2_eq_of _ 5152 (by norm_num) (by norm_num)]
    norm_num
  · rw [round2_eq_of _ 5153 (by norm_num) (by norm_num)]
    norm_num

/-- C4 (amended): status tiers come from the freshness score — fresh at
0.6 and above, ripe on [0.2, 0.6), clearance below 0.2 — the new price is
round(original * (1 - discount/100), 2), and freshness 0.5 yields discount
48.48, status ripe, and price round(original * (1 - 0.4848), 2). -/
theorem status_tiers_and_price_spec :
    (∀ f : ℝ, 0.6 ≤ f → update_status f = statusFresh)
    ∧ (∀ f : ℝ, 0.2 ≤ f → f < 0.6 → update_status f = statusRipe)
    ∧ (∀ f : ℝ, f < 0.2 → update_status f = statusClearance)
    ∧ (∀ s old p : ℝ, (update_freshness_for_item s old p).newPrice =
        round2 (p * (1 - calculate_discount s / 100)))
    ∧ calculate_discount (1 / 2) = 48.48
    ∧ update_status (1 / 2) = statusRipe
    ∧ (∀ old p : ℝ, (update_freshness_for_item (1 / 2) old p).newPrice =
        round2 (p * (1 - 0.4848))) := by
  refine ⟨?_, ?_, ?_, fun s old p => rfl, calculate_discount_at_half,
    update_status_at_half, ?_⟩
  · intro f hf
    unfold update_status
    rw [if_pos hf]
  · intro f h1 h2
    unfold update_status
    rw [if_neg (by linarith), if_pos h1]
  · intro f hf
    unfold update_status
    rw [if_neg (by linarith), if_neg (by linarith)]
  · intro old p
    show round2 (p * (1 - calculate_discount (1 / 2) / 100)) = _
    rw [calculate_discount_at_half]
    norm_num

/-- Witness for C4: the ripe tier applied at freshness 0.5. -/
theorem status_tiers_and_price_spec_witness :
    update_status (1 / 2) = statusRipe :=
  status_tiers_and_price_spec.2.1 (1 / 2) (by norm_num) (by norm_num)

/-- C7 evidence: for the same observed 0-100-scale freshness value 36, the
camera path converts to 0.36 and derives discount 58.8, while the manual
endpoint feeds the raw payload to the engine, which clamps 36 to 1 and
returns discount 0 — the two paths do not deliver the score to the engine
on the same scale. -/
theorem freshness_scale_mismatch_evidence :
    calculate_freshness_update [36] = some (36 / 100)
    ∧ (update_freshness_from_camera 36 0 1).discount = 58.8
    ∧ (update_freshness_endpoint 36).1 = 0
    ∧ (58.8 : ℝ) ≠ 0 := by
  refine ⟨?_, ?_, ?_, by norm_num⟩
  · show some (round4 ((List.sum [(36 : ℝ)] / (List.length [(36 : ℝ)] : ℕ)) / 100)) = _
    rw [show (List.sum [(36 : ℝ)] / (List.length [(36 : ℝ)] : ℕ)) / 100 = 36 / 100 by
      simp]
    unfold round4
    rw [show (36 / 100 : ℝ) * 10000 + 1 / 2 = 3600.5 by norm_num]
    rw [show (⌊(3600.5 : ℝ)⌋ : ℤ) = 3600 by norm_num [Int.floor_eq_iff]]
    norm_num
  · show calculate_discount (36 / 100) = 58.8
    exact calculate_discount_at_036
  · show calculate_discount 36 = 0
    exact calculate_discount_at_36

/-- C10: update_status only ever assigns fresh, ripe or clearance, so the
camera freshness helper's admin alert, which fires only when the status it
just assigned reads critical, can never fire. -/
theorem critical_alert_unreachable :
    (∀ f : ℝ, update_status f = statusFresh ∨ update_status f = statusRipe ∨
      update_status f = statusClearance)
    ∧ (∀ s old p : ℝ, (update_freshness_for_item s old p).criticalAlert = false) := by
  constructor
  · intro f
    unfold update_status
    by_cases h1 : (0.6 : ℝ) ≤ f
    · left; rw [if_pos h1]
    · by_cases h2 : (0.2 : ℝ) ≤ f
      · right; left; rw [if_neg h1, if_pos h2]
      · right; right; rw [if_neg h1, if_neg h2]
  · intro s old p
    show (update_status s == statusCritical) = false
    unfold update_status
    by_cases h1 : (0.6 : ℝ) ≤ s
    · rw [if_pos h1]; decide
    · by_cases h2 : (0.2 : ℝ) ≤ s
      · rw [if_neg h1, if_pos h2]; decide
      · rw [if_neg h1, if_neg h2]; decide

lemma prepareEmit_lastUpd (ft : String) (c p : ℕ) (fr : Option ℚ)
    (ce : Option (ℕ × ℕ)) (t : ℚ) : (prepareEmit ft c p fr ce t).lastUpd = t := by
  unfold prepareEmit
  rcases ce with _ | ⟨i, q⟩ <;> split_ifs <;> rfl

lemma prepareStep_none (ft : String) (c p : ℕ) (fr : Option ℚ)
    (ce : Option (ℕ × ℕ)) (now delta : ℚ) :
    prepareStep ft c p fr ce none now delta = prepareEmit ft c p fr ce now := rfl

lemma prepareStep_skip (ft : String) (c p : ℕ) (fr : Option ℚ)
    (ce : Option (ℕ × ℕ)) (t now delta : ℚ) (h : now - t < delta) :
    prepareStep ft c p fr ce (some t) now delta = ⟨none, ce, t, false⟩ := by
  simp [prepareStep, prepareGate, h]

lemma prepareStep_reopen (ft : String) (c p : ℕ) (fr : Option ℚ)
    (ce : Option (ℕ × ℕ)) (t now delta : ℚ) (h : ¬ now - t < delta) :
    prepareStep ft c p fr ce (some t) now delta = prepareEmit ft c p fr ce now := by
  simp [prepareStep, prepareGate, h]

lemma trackStep_emit (ft : String) (delta : ℚ) (st : TrackState) (tk : TickObs)
    (u : InvUpdate)
    (hE : (prepareStep ft tk.count st.prevCount tk.freshness st.cacheEntry
      st.lastUpd tk.time delta).emitted = some u) :
    (trackStep ft delta st tk).1 = some (tk.time, u) ∧
    (trackStep ft delta st tk).2.lastUpd =
      some (prepareStep ft tk.count st.prevCount tk.freshness st.cacheEntry
        st.lastUpd tk.time delta).lastUpd := by
  unfold trackStep
  simp [hE]

lemma trackStep_noemit (ft : String) (delta : ℚ) (st : TrackState) (tk : TickObs)
    (hE : (prepareStep ft tk.count st.prevCount tk.freshness st.cacheEntry
      st.lastUpd tk.time delta).emitted = none) :
    trackStep ft delta st tk =
      (none, ⟨some (prepareStep ft tk.count st.prevCount tk.freshness st.cacheEntry
        st.lastUpd tk.time delta).lastUpd, st.prevCount,
        (prepareStep ft tk.count st.prevCount tk.freshness st.cacheEntry
          st.lastUpd tk.time delta).cacheEntry⟩) := by
  unfold trackStep
  simp only [hE]

lemma runTicks_cons_emit (ft : String) (delta : ℚ) (st : TrackState) (tk : TickObs)
    (rest : List TickObs) (e : ℚ × InvUpdate)
    (h : (trackStep ft delta st tk).1 = some e) :
    runTicks ft delta st (tk :: rest) =
      e :: runTicks ft delta (trackStep ft delta st tk).2 rest := by
  have hp : trackStep ft delta st tk = (some e, (trackStep ft delta st tk).2) := by
    rw [← h]
  simp only [runTicks]
  rw [hp]

lemma runTicks_cons_noemit (ft : String) (delta : ℚ) (st : TrackState) (tk : TickObs)
    (rest : List TickObs)
    (h : (trackStep ft delta st tk).1 = none) :
    runTicks ft delta st (tk :: rest) =
      runTicks ft delta (trackStep ft delta st tk).2 rest := by
  have hp : trackStep ft delta st tk = (none, (trackStep ft delta st tk).2) := by
    rw [← h]
  simp only [runTicks]
  rw [hp]

/-- Core debounce invariant: over any tick sequence with nondecreasing
times, successive emitted deltas for one category are at least the
debounce interval apart, and every emission happens at least the interval
after an already-recorded stamp. -/
lemma runTicks_separation (ft : String) (delta : ℚ) (hd : 0 ≤ delta)
    (ticks : List TickObs) :
    ∀ st : TrackState,
      List.Chain' tickLE ticks →
      (∀ tk ∈ ticks, ∀ t0, st.lastUpd = some t0 → t0 ≤ tk.time) →
      List.Pairwise (fun a b : ℚ × InvUpdate => delta ≤ b.1 - a.1)
          (runTicks ft delta st ticks)
      ∧ ∀ e ∈ runTicks ft delta st ticks, ∀ t0, st.lastUpd = some t0 →
          t0 + delta ≤ e.1 := by
  induction ticks with
  | nil =>
    intro st _ _
    simp [runTicks]
  | cons tk rest ih =>
    intro st hchain hlb
    have hchainR : List.Chain' tickLE rest := hchain.tail
    have hheadR : ∀ b ∈ rest, tk.time ≤ b.time := by
      have hp := (List.chain'_iff_pairwise (R := tickLE)).mp hchain
      intro b hb
      exact (List.pairwise_cons.mp hp).1 b hb
    by_cases hskip : ∃ t0, st.lastUpd = some t0 ∧ tk.time - t0 < delta
    · -- closed gate: the tick is skipped and the stamp is untouched
      obtain ⟨t0, hst, hlt⟩ := hskip
      have hstep : prepareStep ft tk.count st.prevCount tk.freshness st.cacheEntry
          st.lastUpd tk.time delta = ⟨none, st.cacheEntry, t0, false⟩ := by
        rw [hst]
        exact prepareStep_skip ft tk.count st.prevCount tk.freshness st.cacheEntry
          t0 tk.time delta hlt
      have hE : (prepareStep ft tk.count st.prevCount tk.freshness st.cacheEntry
          st.lastUpd tk.time delta).emitted = none := by rw [hstep]
      have htr := trackStep_noemit ft delta st tk hE
      have hrw := runTicks_cons_noemit ft delta st tk rest (by rw [htr])
      have hst2 : (trackStep ft delta st tk).2.lastUpd = some t0 := by
        rw [htr, hstep]
      obtain ⟨P, Q⟩ := ih (trackStep ft delta st tk).2 hchainR
        (by
          intro b hb t1 ht1
          rw [hst2] at ht1
          injection ht1 with ht1
          subst ht1
          exact hlb b (List.mem_cons_of_mem tk hb) t0 hst)
      refine ⟨by rw [hrw]; exact P, ?_⟩
      intro e he t1 ht1
      rw [hrw] at he
      rw [hst] at ht1
      injection ht1 with ht1
      subst ht1
      exact Q e he t0 hst2
    · -- open gate: the stamp becomes tk.time
      have hopen : ∀ t0, st.lastUpd = some t0 → t0 + delta ≤ tk.time := by
        intro t0 hst
        by_contra hcon
        exact hskip ⟨t0, hst, by linarith⟩
      have hstep : prepareStep ft tk.count st.prevCount tk.freshness st.cacheEntry
          st.lastUpd tk.time delta =
          prepareEmit ft tk.count st.prevCount tk.freshness st.cacheEntry tk.time := by
        rcases hst : st.lastUpd with _ | t0
        · exact prepareStep_none ft tk.count st.prevCount tk.freshness st.cacheEntry
            tk.time delta
        · refine prepareStep_reopen ft tk.count st.prevCount tk.freshness st.cacheEntry
            t0 tk.time delta ?_
          have := hopen t0 hst
          linarith
      have hlast : (prepareStep ft tk.count st.prevCount tk.freshness st.cacheEntry
          st.lastUpd tk.time delta).lastUpd = tk.time := by
        rw [hstep]
        exact prepareEmit_lastUpd ft tk.count st.prevCount tk.freshness
          st.cacheEntry tk.time
      cases hE : (prepareStep ft tk.count st.prevCount tk.freshness st.cacheEntry
          st.lastUpd tk.time delta).emitted with
      | none =>
        have htr := trackStep_noemit ft delta st tk hE
        have hrw := runTicks_cons_noemit ft delta st tk rest (by rw [htr])
        have hst2 : (trackStep ft delta st tk).2.lastUpd = some tk.time := by
          rw [htr, hlast]
        obtain ⟨P, Q⟩ := ih (trackStep ft delta st tk).2 hchainR
          (by
            intro b hb t1 ht1
            rw [hst2] at ht1
            injection ht1 with ht1
            subst ht1
            exact hheadR b hb)
        refine ⟨by rw [hrw]; exact P, ?_⟩
        intro e he t1 ht1
        rw [hrw] at he
        have h1 := Q e he tk.time hst2
        have h2 := hopen t1 ht1
        linarith
      | some u =>
        obtain ⟨htr1, htr2⟩ := trackStep_emit ft delta st tk u hE
        have hrw := runTicks_cons_emit ft delta st tk rest (tk.time, u) htr1
        have hst2 : (trackStep ft delta st tk).2.lastUpd = some tk.time := by
          rw [htr2, hlast]
        obtain ⟨P, Q⟩ := ih (trackStep ft delta st tk).2 hchainR
          (by
            intro b hb t1 ht1
            rw [hst2] at ht1
            injection ht1 with ht1
            subst ht1
            exact hheadR b hb)
        constructor
        · rw [hrw]
          refine List.Pairwise.cons ?_ P
          intro e he
          have := Q e he tk.time hst2
          simp only
          linarith
        · intro e he t1 ht1
          rw [hrw] at he
          rcases List.mem_cons.mp he with rfl | he2
          · simpa using hopen t1 ht1
          · have h1 := Q e he2 tk.time hst2
            have h2 := hopen t1 ht1
            linarith

/-- C2: over any sequence of detection ticks with nondecreasing times and
a fresh tracker state, two emitted count-deltas for one category are never
less than update_interval apart; a tick whose elapsed time since the
recorded last_update_time is below update_interval skips the category
entirely (no delta, no timestamp mutation, no image deletion); and a
category with no recorded last_update_time always updates on first
sighting (a delta is emitted and the timestamp is stamped). -/
theorem debounce_gate_spec :
    (∀ (ft : String) (delta : ℚ) (ticks : List TickObs) (p0 : ℕ)
        (ce0 : Option (ℕ × ℕ)), 0 ≤ delta → List.Chain' tickLE ticks →
        List.Pairwise (fun a b : ℚ × InvUpdate => delta ≤ b.1 - a.1)
          ((runTicks ft delta ⟨none, p0, ce0⟩ ticks).filter
            (fun e => decide (e.2.kind ≠ UpdateKind.freshnessOnly))))
    ∧ (∀ (ft : String) (c p : ℕ) (fr : Option ℚ) (ce : Option (ℕ × ℕ))
        (t now delta : ℚ), now - t < delta →
        prepareStep ft c p fr ce (some t) now delta = ⟨none, ce, t, false⟩)
    ∧ (∀ (ft : String) (c p : ℕ) (fr : Option ℚ) (ce : Option (ℕ × ℕ))
        (now delta : ℚ), 0 < c → c ≠ p →
        (prepareStep ft c p fr ce none now delta).emitted.isSome = true ∧
        (prepareStep ft c p fr ce none now delta).lastUpd = now) := by
  refine ⟨?_, prepareStep_skip, ?_⟩
  · intro ft delta ticks p0 ce0 hd hchain
    have h := (runTicks_separation ft delta hd ticks ⟨none, p0, ce0⟩ hchain
      (fun tk _ t0 ht0 => by cases ht0)).1
    exact h.sublist (List.filter_sublist _)
  · intro ft c p fr ce now delta hc hcp
    rw [prepareStep_none]
    refine ⟨?_, prepareEmit_lastUpd ft c p fr ce now⟩
    unfold prepareEmit
    rcases ce with _ | ⟨i, q⟩
    · simp [hcp, hc]
    · simp [hcp]

/-- Witness for C2: a concrete three-tick trace under a one-second
debounce, a concrete skipped tick, and a concrete first sighting. -/
theorem debounce_gate_spec_witness :
    List.Pairwise (fun a b : ℚ × InvUpdate => (1 : ℚ) ≤ b.1 - a.1)
      ((runTicks appleLabel 1 ⟨none, 0, none⟩
        [⟨0, 3, none⟩, ⟨1 / 2, 5, none⟩, ⟨2, 4, none⟩]).filter
        (fun e => decide (e.2.kind ≠ UpdateKind.freshnessOnly)))
    ∧ prepareStep appleLabel 4 3 none none (some 0) (1 / 2) 1 = ⟨none, none, 0, false⟩
    ∧ (prepareStep appleLabel 3 0 none none none 5 1).emitted.isSome = true ∧
      (prepareStep appleLabel 3 0 none none none 5 1).lastUpd = 5 := by
  refine ⟨debounce_gate_spec.1 appleLabel 1 _ 0 none (by norm_num) ?_,
    debounce_gate_spec.2.1 appleLabel 4 3 none none 0 (1 / 2) 1 (by norm_num),
    debounce_gate_spec.2.2 appleLabel 3 0 none none 5 1 (by norm_num) (by norm_num)⟩
  simp [List.chain'_cons, tickLE]
  norm_num

/-- C1 counterexample: in a cycle that raises apple from 3 to 5 and drops
banana to 0, the cache is already advanced for both categories by
_prepare_inventory_updates before any store write; when banana's store
write then fails, the batch surfaces an error with apple's write already
durably committed (quantity 5 in the store) and the cache still holding
the advanced entries — no rollback, cache not left unmodified, writes not
all-or-nothing. -/
theorem inventory_batch_atomicity_cex :
    cacheLookup demoCache appleLabel = some (1, 3)
    ∧ cacheLookup demoCache bananaLabel = some (2, 2)
    ∧ cacheLookup demoPrep.cache appleLabel = some (1, 5)
    ∧ cacheLookup demoPrep.cache bananaLabel = some (2, 0)
    ∧ exceptIsError demoApplyResult = true
    ∧ storeQty (exceptState demoApplyResult).1 1 = some 5
    ∧ storeQty (exceptState demoApplyResult).1 2 = some 2
    ∧ cacheLookup (exceptState demoApplyResult).2 bananaLabel = some (2, 0) := by
  decide

/-- C1 (amended): the reconciliation batch is not transactional — the
cache entry for an update-type delta is advanced already at preparation
time, before any store write; each update's write is committed as the
batch proceeds, so a failing write surfaces an error carrying every
earlier write already committed and the cache as advanced, with no
rollback; an all-successful batch equals the sequential fold of its
updates. -/
theorem inventory_batch_commit_behavior :
    (∀ (ft : String) (c p : ℕ) (fr : Option ℚ) (id q : ℕ) (t now delta : ℚ),
        delta ≤ now - t → c ≠ p →
        (prepareStep ft c p fr (some (id, q)) (some t) now delta).cacheEntry =
          some (id, c))
    ∧ (∀ (pre : List (InvUpdate × Bool)) (u : InvUpdate)
        (post : List (InvUpdate × Bool)) (st : InvStore) (cache : InventoryCache),
        (∀ x ∈ pre, x.2 = false) →
        applyInventoryUpdates (pre ++ (u, true) :: post) st cache =
          .error (pre.foldl (fun s x => applyUpdate s.1 s.2 x.1) (st, cache)))
    ∧ (∀ (us : List (InvUpdate × Bool)) (st : InvStore) (cache : InventoryCache),
        (∀ x ∈ us, x.2 = false) →
        applyInventoryUpdates us st cache =
          .ok (us.foldl (fun s x => applyUpdate s.1 s.2 x.1) (st, cache))) := by
  refine ⟨?_, ?_, ?_⟩
  · intro ft c p fr id q t now delta hge hcp
    rw [prepareStep_reopen ft c p fr (some (id, q)) t now delta (by linarith)]
    simp [prepareEmit, hcp]
  · intro pre
    induction pre with
    | nil =>
      intro u post st cache _
      simp [applyInventoryUpdates]
    | cons x pre ih =>
      intro u post st cache hpre
      have hx : x.2 = false := hpre x (List.mem_cons_self x pre)
      rcases x with ⟨ux, bx⟩
      simp only at hx
      subst hx
      simp only [List.cons_append, applyInventoryUpdates, if_neg Bool.false_ne_true,
        List.foldl_cons]
      exact ih u post _ _ (fun y hy => hpre y (List.mem_cons_of_mem _ hy))
  · intro us
    induction us with
    | nil =>
      intro st cache _
      simp [applyInventoryUpdates]
    | cons x us ih =>
      intro st cache hus
      have hx : x.2 = false := hus x (List.mem_cons_self x us)
      rcases x with ⟨ux, bx⟩
      simp only at hx
      subst hx
      simp only [applyInventoryUpdates, if_neg Bool.false_ne_true, List.foldl_cons]
      exact ih _ _ (fun y hy => hus y (List.mem_cons_of_mem _ hy))

/-- Witness for C1: the three clauses applied to the concrete demo batch. -/
theorem inventory_batch_commit_behavior_witness :
    (prepareStep appleLabel 5 3 none (some (1, 3)) (some 0) 10 1).cacheEntry = some (1, 5)
    ∧ applyInventoryUpdates [(demoU1, false), (demoU2, true)] demoStore demoCache =
        .error ([(demoU1, false)].foldl (fun s x => applyUpdate s.1 s.2 x.1)
          (demoStore, demoCache))
    ∧ applyInventoryUpdates [(demoU1, false)] demoStore demoCache =
        .ok ([(demoU1, false)].foldl (fun s x => applyUpdate s.1 s.2 x.1)
          (demoStore, demoCache)) := by
  refine ⟨inventory_batch_commit_behavior.1 appleLabel 5 3 none 1 3 0 10 1
      (by norm_num) (by decide),
    inventory_batch_commit_behavior.2.1 [(demoU1, false)] demoU2 [] demoStore demoCache ?_,
    inventory_batch_commit_behavior.2.2 [(demoU1, false)] demoStore demoCache ?_⟩
  · intro x hx
    obtain rfl := List.mem_singleton.mp hx
    rfl
  · intro x hx
    obtain rfl := List.mem_singleton.mp hx
    rfl

/-- C5: when a tracked category's count transitions to zero past an open
gate, the prepared delta is an update that zeroes the quantity of the
existing record's id (with image deletion triggered), applying such a
delta keeps the record in the store — same store size, the id still
addressable, quantity zero — and image deletion retains exactly the
processed/thumbnail files. -/
theorem zero_count_reconcile_spec :
    (∀ (ft : String) (p : ℕ) (fr : Option ℚ) (id q : ℕ) (t now delta : ℚ),
        delta ≤ now - t → p ≠ 0 →
        prepareStep ft 0 p fr (some (id, q)) (some t) now delta =
          ⟨some ⟨.update, some id, ft, q, 0, none⟩, some (id, 0), now, true⟩)
    ∧ (∀ (st : InvStore) (cache : InventoryCache) (u : InvUpdate) (it : InvItem),
        u.kind = .update → u.newQuantity = 0 → u.itemId = some it.id →
        st.find? (fun x => decide (x.id = it.id)) = some it →
        (applyUpdate st cache u).1.length = st.length ∧
          ∃ x ∈ (applyUpdate st cache u).1, x.id = it.id ∧ x.quantity = 0)
    ∧ (∀ (files : List String) (f : String),
        f ∈ delete_category_images files ↔ f ∈ files ∧ preservedImage f = true) := by
  refine ⟨?_, ?_, ?_⟩
  · intro ft p fr id q t now delta hge hp
    rw [prepareStep_reopen ft 0 p fr (some (id, q)) t now delta (by linarith)]
    simp [prepareEmit, Ne.symm hp]
  · intro st cache u it hk hq hid hfind
    unfold applyUpdate
    rw [hk]
    simp only [hid, Option.getD_some, hfind]
    constructor
    · exact List.length_map st _
    · have hmem := List.mem_of_find?_eq_some hfind
      refine ⟨if it.id = it.id then { it with quantity := u.newQuantity } else it,
        List.mem_map_of_mem _ hmem, ?_⟩
      rw [if_pos rfl]
      exact ⟨rfl, hq⟩
  · intro files f
    simp [delete_category_images, List.mem_filter]

/-- Witness for C5: the three clauses at concrete inputs — banana dropping
from 2 to 0, the demo store, and a three-file directory. -/
theorem zero_count_reconcile_spec_witness :
    prepareStep bananaLabel 0 2 none (some (2, 2)) (some 0) 10 1 =
      ⟨some ⟨.update, some 2, bananaLabel, 2, 0, none⟩, some (2, 0), 10, true⟩
    ∧ ((applyUpdate demoStore demoCache demoU2).1.length = demoStore.length ∧
        ∃ x ∈ (applyUpdate demoStore demoCache demoU2).1, x.id = 2 ∧ x.quantity = 0)
    ∧ (procImgName ∈ delete_category_images demoFiles ↔
        procImgName ∈ demoFiles ∧ preservedImage procImgName = true) := by
  refine ⟨zero_count_reconcile_spec.1 bananaLabel 2 none 2 2 0 10 1 (by norm_num)
      (by decide),
    zero_count_reconcile_spec.2.1 demoStore demoCache demoU2 ⟨2, bananaLabel, 2⟩
      rfl rfl rfl (by decide),
    zero_count_reconcile_spec.2.2 demoFiles procImgName⟩

/-- C8 counterexample: with a cap of 3, the two oldest files of the demo
directory are deleted although one is a processed file and the other the
thumbnail — the claimed exemption of processed/thumbnail files does not
exist in keep_latest_images. -/
theorem retention_pruning_cex :
    (keep_latest_images demoImgs 3).2 = [⟨procImgName, 1⟩, ⟨thumbImgName, 0⟩]
    ∧ preservedImage procImgName = true
    ∧ preservedImage thumbImgName = true := by
  decide

/-- C8 (amended): retention pruning keeps at most the configured maximum
number of images and deletes only the oldest files beyond the cap (every
deleted file is no newer than every kept file, and nothing is lost or
duplicated), but files marked processed or thumbnail are not exempt from
deletion. -/
theorem retention_pruning_spec :
    (∀ (files : List ImgFile) (m : ℕ), (keep_latest_images files m).1.length ≤ m)
    ∧ (∀ (files : List ImgFile) (m : ℕ),
        ∀ d ∈ (keep_latest_images files m).2, ∀ k ∈ (keep_latest_images files m).1,
          d.mtime ≤ k.mtime)
    ∧ (∀ (files : List ImgFile) (m : ℕ),
        ((keep_latest_images files m).1 ++ (keep_latest_images files m).2).Perm files) := by
  refine ⟨?_, ?_, ?_⟩
  · intro files m
    unfold keep_latest_images
    split_ifs with h
    · exact h
    · simp [min_le_left]
  · intro files m d hd k hk
    unfold keep_latest_images at hd hk
    split_ifs at hd hk with h
    · simp at hd
    · have hsorted : List.Pairwise newerEq (List.insertionSort newerEq files) :=
        List.sorted_insertionSort newerEq files
      rw [← List.take_append_drop m (List.insertionSort newerEq files)] at hsorted
      exact (List.pairwise_append.mp hsorted).2.2 k hk d hd
  · intro files m
    unfold keep_latest_images
    split_ifs with h
    · simp
    · rw [List.take_append_drop]
      exact List.perm_insertionSort newerEq files

/-- Witness for C8: the amended clauses on the demo directory — the cap,
one concrete deleted/kept mtime comparison, and the permutation. -/
theorem retention_pruning_spec_witness :
    (keep_latest_images demoImgs 3).1.length ≤ 3
    ∧ (⟨procImgName, 1⟩ : ImgFile).mtime ≤ (⟨"d.jpg", 30⟩ : ImgFile).mtime
    ∧ ((keep_latest_images demoImgs 3).1 ++ (keep_latest_images demoImgs 3).2).Perm
        demoImgs := by
  refine ⟨retention_pruning_spec.1 demoImgs 3,
    retention_pruning_spec.2.1 demoImgs 3 ⟨procImgName, 1⟩ (by decide)
      ⟨"d.jpg", 30⟩ (by decide),
    retention_pruning_spec.2.2 demoImgs 3⟩

lemma dispatch_ai_skip (interval lastCall now : ℚ) (h : now - lastCall < interval) :
    generateRecommendationsThreaded false true interval lastCall now =
      ⟨false, false, lastCall⟩ := by
  simp [generateRecommendationsThreaded, h]

lemma dispatch_ai_run (interval lastCall now : ℚ) (h : ¬ now - lastCall < interval) :
    generateRecommendationsThreaded false true interval lastCall now =
      ⟨true, false, now⟩ := by
  simp [generateRecommendationsThreaded, h]

lemma runAiBurst_skip_all (interval t0 : ℚ) :
    ∀ ts : List ℚ, (∀ t ∈ ts, t - t0 < interval) → runAiBurst interval t0 ts = 0 := by
  intro ts
  induction ts with
  | nil => intro _; rfl
  | cons t ts ih =>
    intro h
    have ht : t - t0 < interval := h t (List.mem_cons_self t ts)
    simp only [runAiBurst, dispatch_ai_skip interval t0 t ht]
    simp [ih (fun x hx => h x (List.mem_cons_of_mem t hx))]

/-- C6: a burst of qualifying calls inside one rate-limit interval yields
exactly one AI invocation — the first allowed call consumes the interval
and every later call of the burst is silently dropped — while the simple
matcher path always runs, never consults the limiter and never moves the
shared stamp. -/
theorem ai_rate_limit_spec :
    (∀ (interval lastCall t0 : ℚ) (rest : List ℚ),
        interval ≤ t0 - lastCall →
        (∀ t ∈ rest, t0 ≤ t ∧ t - t0 < interval) →
        runAiBurst interval lastCall (t0 :: rest) = 1)
    ∧ (∀ (rateLimited : Bool) (interval lastCall now : ℚ),
        (generateRecommendationsThreaded true rateLimited interval lastCall now).simpleInvoked
            = true
        ∧ (generateRecommendationsThreaded true rateLimited interval lastCall now).aiInvoked
            = false
        ∧ (generateRecommendationsThreaded true rateLimited interval lastCall now).newLast
            = lastCall) := by
  constructor
  · intro interval lastCall t0 rest h1 h2
    have hfirst : ¬ t0 - lastCall < interval := by linarith
    simp only [runAiBurst, dispatch_ai_run interval lastCall t0 hfirst]
    simp [runAiBurst_skip_all interval t0 rest (fun t ht => (h2 t ht).2)]
  · intro rateLimited interval lastCall now
    exact ⟨rfl, rfl, rfl⟩

/-- Witness for C6: ten qualifying crossings within one second under a
ten-second limit produce exactly one AI invocation, and the simple path
still runs at such a moment. -/
theorem ai_rate_limit_spec_witness :
    runAiBurst 10 0
      [1000, 1000 + 1 / 10, 1000 + 2 / 10, 1000 + 3 / 10, 1000 + 4 / 10,
        1000 + 5 / 10, 1000 + 6 / 10, 1000 + 7 / 10, 1000 + 8 / 10, 1000 + 9 / 10] = 1
    ∧ (generateRecommendationsThreaded true true 10 1000 (1000 + 1 / 10)).simpleInvoked
        = true
    ∧ (generateRecommendationsThreaded true true 10 1000 (1000 + 1 / 10)).aiInvoked
        = false
    ∧ (generateRecommendationsThreaded true true 10 1000 (1000 + 1 / 10)).newLast
        = 1000 := by
  refine ⟨ai_rate_limit_spec.1 10 0 1000 _ (by norm_num) ?_,
    ai_rate_limit_spec.2 true 10 1000 (1000 + 1 / 10)⟩
  intro t ht
  simp only [List.mem_cons, List.not_mem_nil, or_false] at ht
  rcases ht with rfl | rfl | rfl | rfl | rfl | rfl | rfl | rfl | rfl <;> norm_num

lemma simpleRecGo_abort (item : DiscountedItem) (fails : Customer → Bool)
    (cBad : Customer) (post : List Customer) (hbad : fails cBad = true) :
    ∀ (pre : List Customer) (recs notes : List ℕ), (∀ c ∈ pre, fails c = false) →
      simpleRecGo item fails (pre ++ cBad :: post) recs notes =
        ⟨[], notes ++ matchedIds item pre⟩ := by
  intro pre
  induction pre with
  | nil =>
    intro recs notes _
    simp [simpleRecGo, hbad, matchedIds]
  | cons c pre ih =>
    intro recs notes hpre
    have hc : fails c = false := hpre c (List.mem_cons_self c pre)
    rw [List.cons_append]
    by_cases hm : customerMatches item c
    · simp only [simpleRecGo, hc, Bool.false_eq_true, if_false, if_pos hm]
      rw [ih (recs ++ [c.id]) (notes ++ [c.id])
        (fun x hx => hpre x (List.mem_cons_of_mem c hx))]
      simp [matchedIds, hm, List.filter_cons]
    · simp only [simpleRecGo, hc, Bool.false_eq_true, if_false, if_neg hm]
      rw [ih recs notes (fun x hx => hpre x (List.mem_cons_of_mem c hx))]
      simp [matchedIds, hm, List.filter_cons]

lemma simpleRecGo_ok (item : DiscountedItem) (fails : Customer → Bool) :
    ∀ (cs : List Customer) (recs notes : List ℕ), (∀ c ∈ cs, fails c = false) →
      simpleRecGo item fails cs recs notes =
        ⟨recs ++ matchedIds item cs, notes ++ matchedIds item cs⟩ := by
  intro cs
  induction cs with
  | nil =>
    intro recs notes _
    simp [simpleRecGo, matchedIds]
  | cons c cs ih =>
    intro recs notes hcs
    have hc : fails c = false := hcs c (List.mem_cons_self c cs)
    by_cases hm : customerMatches item c
    · simp only [simpleRecGo, hc, Bool.false_eq_true, if_false, if_pos hm]
      rw [ih (recs ++ [c.id]) (notes ++ [c.id])
        (fun x hx => hcs x (List.mem_cons_of_mem c hx))]
      simp [matchedIds, hm, List.filter_cons]
    · simp only [simpleRecGo, hc, Bool.false_eq_true, if_false, if_neg hm]
      rw [ih recs notes (fun x hx => hcs x (List.mem_cons_of_mem c hx))]
      simp [matchedIds, hm, List.filter_cons]

/-- C9 counterexample: with a matching customer queued behind a customer
whose processing raises, the matching customer matches the item yet the
run commits no recommendation and sends no notification — a failure for
one customer aborts matching for the others. -/
theorem simple_matcher_failure_cex :
    customerMatches demoItem goodCustomer
    ∧ generate_recommendations_simple demoItem [badCustomer, goodCustomer] demoFails =
        ⟨[], []⟩ := by
  constructor
  · refine ⟨?_, ?_, ?_⟩ <;> norm_num [demoItem, goodCustomer, customerMatches]
  · unfold generate_recommendations_simple
    rw [if_neg (by norm_num [demoItem])]
    simp [simpleRecGo, demoFails, badCustomer]

/-- C9 (amended): a failure while matching one customer aborts matching
for all remaining customers — the whole session is rolled back so no
recommendation records at all are committed, and only customers processed
before the failure were notified; when no customer's processing fails,
every matching customer gets a recommendation and a notification. -/
theorem simple_matcher_failure_spec :
    (∀ (item : DiscountedItem) (fails : Customer → Bool) (pre : List Customer)
        (cBad : Customer) (post : List Customer),
        (∀ c ∈ pre, fails c = false) → fails cBad = true → ¬ item.discount < 15 →
        generate_recommendations_simple item (pre ++ cBad :: post) fails =
          ⟨[], matchedIds item pre⟩)
    ∧ (∀ (item : DiscountedItem) (fails : Customer → Bool) (customers : List Customer),
        (∀ c ∈ customers, fails c = false) → ¬ item.discount < 15 →
        generate_recommendations_simple item customers fails =
          ⟨matchedIds item customers, matchedIds item customers⟩) := by
  constructor
  · intro item fails pre cBad post hpre hbad hbar
    unfold generate_recommendations_simple
    rw [if_neg hbar, simpleRecGo_abort item fails cBad post hbad pre [] [] hpre]
    simp
  · intro item fails customers hok hbar
    unfold generate_recommendations_simple
    rw [if_neg hbar, simpleRecGo_ok item fails customers [] [] hok]
    simp

/-- Witness for C9: both clauses on the concrete two-customer scenario. -/
theorem simple_matcher_failure_spec_witness :
    generate_recommendations_simple demoItem ([] ++ badCustomer :: [goodCustomer])
        demoFails = ⟨[], matchedIds demoItem []⟩
    ∧ generate_recommendations_simple demoItem [goodCustomer] (fun _ => false) =
        ⟨matchedIds demoItem [goodCustomer], matchedIds demoItem [goodCustomer]⟩ := by
  refine ⟨simple_matcher_failure_spec.1 demoItem demoFails [] badCustomer [goodCustomer]
      (by intro c hc; cases hc) rfl (by norm_num [demoItem]),
    simple_matcher_failure_spec.2 demoItem (fun _ => false) [goodCustomer]
      (fun c _ => rfl) (by norm_num [demoItem])⟩

end SusCart
